import Mathlib

/-!
Verification development for the P2P chatroom repository.

The embedding models the three core modules:
  * src/p2p/host.py      — P2PHost: peer registry, failure counters, sends
  * src/p2p/chatroom.py  — ChatRoom: history, dedup by message id, publish
  * src/p2p/discovery.py — PeerDiscovery: announcement filtering and de-dup

Network effects are externalized: the success or failure of each socket
send is an input (a Bool or a function from peer id to Bool), and the
random uuid / current timestamp generated inside the code are inputs
(`freshId`, `now`).  Python dicts are modelled as association lists with
unique keys (assignment updates an existing key in place and appends a
new key; `pop` removes the key — since keys are unique, removing every
binding of the key is the same operation).
-/

namespace Chatroom

def alookup {α : Type} : List (String × α) → String → Option α
  | [], _ => none
  | (k', v') :: rest, k => if k' = k then some v' else alookup rest k

def aset {α : Type} : List (String × α) → String → α → List (String × α)
  | [], k, v => [(k, v)]
  | (k', v') :: rest, k, v => if k' = k then (k, v) :: rest else (k', v') :: aset rest k v

def aerase {α : Type} : List (String × α) → String → List (String × α)
  | [], _ => []
  | (k', v') :: rest, k => if k' = k then aerase rest k else (k', v') :: aerase rest k

/-- JSON-ish values appearing in wire payload dicts. -/
inductive JVal : Type where
  | str : String → JVal
  | num : Nat → JVal
  | obj : List (String × JVal) → JVal

/-- A decoded JSON object, as handed to `broadcast_message` and to handlers. -/
def Dict : Type := List (String × JVal)

/-- State of `P2PHost` (src/p2p/host.py): identity, peer table
`peers : peer_id ↦ (ip, port)` and failure counters `peer_failures`. -/
structure P2PHost : Type where
  peer_id : String
  peers : List (String × String × Nat)
  peer_failures : List (String × Nat)

/-- `P2PHost._send_to_peer` (host.py lines 111-138).  `ok` is the outcome of
the socket connect/send (true = no exception raised). -/
def send_to_peer (st : P2PHost) (pid : String) (ok : Bool) : P2PHost :=
  match alookup st.peers pid with
  | none => st
  | some _ =>
    if ok then
      match alookup st.peer_failures pid with
      | some _ => { st with peer_failures := aset st.peer_failures pid 0 }
      | none => st
    else
      let f := (alookup st.peer_failures pid).getD 0 + 1
      let pf := aset st.peer_failures pid f
      if 3 ≤ f then
        { st with peers := aerase st.peers pid, peer_failures := aerase pf pid }
      else
        { st with peer_failures := pf }

/-- `P2PHost.connect_to_peer` (host.py lines 90-109).  `handshake_ok` is the
outcome of the handshake send performed through `_send_to_peer`. -/
def connect_to_peer (st : P2PHost) (ip : String) (port : Nat) (pid : String)
    (handshake_ok : Bool) : P2PHost × Bool :=
  if (alookup st.peers pid).isSome then (st, true)
  else
    let st1 : P2PHost :=
      { st with peers := aset st.peers pid (ip, port),
                peer_failures := aset st.peer_failures pid 0 }
    (send_to_peer st1 pid handshake_ok, true)

/-- One iteration of the per-peer loop in `P2PHost.broadcast_message`
(host.py lines 149-170): on success bump the send count and reset the
failure counter if present; on failure increment it and evict at 3. -/
def broadcastStep (outcomes : String → Bool) (acc : P2PHost × Nat)
    (entry : String × String × Nat) : P2PHost × Nat :=
  let st := acc.1
  let pid := entry.1
  if outcomes pid then
    let st' := match alookup st.peer_failures pid with
      | some _ => { st with peer_failures := aset st.peer_failures pid 0 }
      | none => st
    (st', acc.2 + 1)
  else
    let f := (alookup st.peer_failures pid).getD 0 + 1
    let pf := aset st.peer_failures pid f
    if 3 ≤ f then
      ({ st with peers := aerase st.peers pid, peer_failures := aerase pf pid }, acc.2)
    else
      ({ st with peer_failures := pf }, acc.2)

/-- `P2PHost.broadcast_message` (host.py lines 140-172).  The first statement
`message['peer_id'] = self.peer_id` mutates the caller's dict in place; the
mutated dict is returned as the second component so that the caller's view
after the call is observable.  `outcomes pid` is the network outcome of the
send to peer `pid`. -/
def broadcast_message (st : P2PHost) (message : Dict) (outcomes : String → Bool) :
    P2PHost × Dict × Nat :=
  let message' := aset message "peer_id" (JVal.str st.peer_id)
  let snapshot := st.peers
  let r := snapshot.foldl (broadcastStep outcomes) (st, 0)
  (r.1, message', r.2)

/-- `ChatMessage` dataclass (chatroom.py lines 10-23), after `__post_init__`
has filled in any missing `MessageID`/`Timestamp`. -/
structure ChatMessage : Type where
  Message : String
  SenderID : String
  SenderNick : String
  MessageID : String
  Timestamp : String
deriving DecidableEq

/-- The `data` field of a wire chat payload: a dict whose known keys are the
five `ChatMessage` fields; `none` means the key is absent.  (Payloads are
restricted to these keys, so `ChatMessage(**data)` raises no `TypeError`.) -/
structure MsgData : Type where
  Message : Option String
  SenderID : Option String
  SenderNick : Option String
  MessageID : Option String
  Timestamp : Option String
deriving DecidableEq

def emptyMsgData : MsgData :=
  { Message := none, SenderID := none, SenderNick := none,
    MessageID := none, Timestamp := none }

/-- An inbound wire payload as seen by `_handle_incoming_message`:
`message_data.get('type')`, `message_data.get('room')`,
`message_data.get('data', {})`. -/
structure Payload : Type where
  type : Option String
  room : Option String
  data : Option MsgData
deriving DecidableEq

/-- Field validation plus `ChatMessage(**data)` (chatroom.py lines 109-113
and 19-23): requires the three mandatory keys; `MessageID` defaults to a
fresh uuid fragment `freshId`, `Timestamp` to the current time `now`. -/
def mkChatMessage (d : MsgData) (freshId now : String) : Option ChatMessage :=
  match d.Message, d.SenderID, d.SenderNick with
  | some m, some sid, some nick =>
    some { Message := m, SenderID := sid, SenderNick := nick,
           MessageID := d.MessageID.getD freshId,
           Timestamp := d.Timestamp.getD now }
  | _, _, _ => none

/-- Python `set.add` on a set modelled as a duplicate-free list. -/
def setInsert (x : String) (s : List String) : List String :=
  if x ∈ s then s else x :: s

/-- State owned by `ChatRoom` (chatroom.py lines 32-42): room name, local
nickname and peer id, message history, and the seen-id set. -/
structure ChatRoom : Type where
  room_name : String
  nickname : String
  peer_id : String
  messages : List ChatMessage
  seen_message_ids : List String
deriving DecidableEq

/-- `ChatRoom._handle_incoming_message` (chatroom.py lines 89-135).
`freshId` and `now` are the uuid fragment and timestamp that
`ChatMessage.__post_init__` would generate for this delivery. -/
def handle_incoming_message (st : ChatRoom) (p : Payload) (freshId now : String) :
    ChatRoom :=
  if p.type ≠ some "chat_message" then st
  else if p.room ≠ some st.room_name then st
  else
    match mkChatMessage (p.data.getD emptyMsgData) freshId now with
    | none => st
    | some msg =>
      if msg.SenderID = st.peer_id then st
      else if msg.MessageID ∈ st.seen_message_ids then st
      else { st with messages := st.messages ++ [msg],
                     seen_message_ids := setInsert msg.MessageID st.seen_message_ids }

/-- Formatting used by `ChatRoom.get_messages` (chatroom.py line 146). -/
def formatMessage (msg : ChatMessage) : String :=
  "[" ++ msg.Timestamp ++ "] " ++ msg.SenderNick ++ ": " ++ msg.Message

/-- `ChatRoom.get_messages` (chatroom.py lines 137-148). -/
def get_messages (st : ChatRoom) : List String :=
  st.messages.map formatMessage

/-- `dataclasses.asdict(chat_msg)` serialized into the wire dict. -/
def msgDataDict (msg : ChatMessage) : Dict :=
  [("Message", JVal.str msg.Message), ("SenderID", JVal.str msg.SenderID),
   ("SenderNick", JVal.str msg.SenderNick), ("MessageID", JVal.str msg.MessageID),
   ("Timestamp", JVal.str msg.Timestamp)]

/-- The `broadcast_data` dict built by `ChatRoom.publish` (chatroom.py 68-72). -/
def payloadDict (room_name : String) (msg : ChatMessage) : Dict :=
  [("type", JVal.str "chat_message"), ("room", JVal.str room_name),
   ("data", JVal.obj (msgDataDict msg))]

/-- `ChatRoom.publish` (chatroom.py lines 44-87), together with the host it
broadcasts through.  `freshId`/`now` are the generated message id and
timestamp; `outcomes` gives each peer send's network outcome.  Returns the
new room state, the new host state, and the boolean returned to the caller
(`success_count > 0`). -/
def publish (room : ChatRoom) (host : P2PHost) (body freshId now : String)
    (outcomes : String → Bool) : ChatRoom × P2PHost × Bool :=
  let msg : ChatMessage :=
    { Message := body, SenderID := room.peer_id, SenderNick := room.nickname,
      MessageID := freshId, Timestamp := now }
  let room' : ChatRoom :=
    { room with messages := room.messages ++ [msg],
                seen_message_ids := setInsert msg.MessageID room.seen_message_ids }
  let r := broadcast_message host (payloadDict room.room_name msg) outcomes
  (room', r.1, if 0 < r.2.2 then true else false)

/-- One `publish` call's inputs: the text plus the generated id/timestamp. -/
structure PublishCall : Type where
  body : String
  freshId : String
  now : String
deriving DecidableEq

/-- A sequence of `publish` calls, threaded through room and host state. -/
def runPublishes (room : ChatRoom) (host : P2PHost) (outcomes : String → Bool) :
    List PublishCall → ChatRoom × P2PHost
  | [] => (room, host)
  | c :: rest =>
    let r := publish room host c.body c.freshId c.now outcomes
    runPublishes r.1 r.2.1 outcomes rest

/-- Delivering the same payload `p` to the inbound handler `n` times;
delivery number `k` (0-based, innermost first) uses the generated
uuid/timestamp pair `ids k`. -/
def iterateHandler (st : ChatRoom) (p : Payload) (ids : Nat → String × String) :
    Nat → ChatRoom
  | 0 => st
  | n + 1 => handle_incoming_message (iterateHandler st p ids n) p (ids n).1 (ids n).2

/-- State of `PeerDiscovery` (discovery.py lines 16-31) relevant to the
listen loop: own id, rendezvous, and the set of discovered peer ids. -/
structure PeerDiscovery : Type where
  peer_id : String
  rendezvous : String
  discovered_peers : List String
deriving DecidableEq

/-- A decoded discovery announcement; `none` encodes an absent key
(`message.get(...)`). -/
structure Announcement : Type where
  peer_id : Option String
  p2p_port : Option Nat
  rendezvous : Option String
deriving DecidableEq

/-- One iteration of `PeerDiscovery._listen_for_peers` (discovery.py lines
107-148) on a decoded datagram from source address `srcIp`.  Returns the new
state and the `on_peer_found` callback invocation, if any.  Python
truthiness of `not peer_id or not peer_port` is `pid = "" ∨ port = 0` once
both keys are present. -/
def processAnnouncement (st : PeerDiscovery) (msg : Announcement) (srcIp : String) :
    PeerDiscovery × Option (String × String × Nat) :=
  if msg.peer_id = some st.peer_id then (st, none)
  else if msg.rendezvous ≠ some st.rendezvous then (st, none)
  else
    match msg.peer_id, msg.p2p_port with
    | some pid, some port =>
      if pid = "" ∨ port = 0 then (st, none)
      else if pid ∈ st.discovered_peers then (st, none)
      else ({ st with discovered_peers := setInsert pid st.discovered_peers },
            some (pid, srcIp, port))
    | _, _ => (st, none)

/-- The listen loop over a sequence of received datagrams, collecting every
callback invocation in order. -/
def processDatagrams (st : PeerDiscovery) :
    List (Announcement × String) → PeerDiscovery × List (String × String × Nat)
  | [] => (st, [])
  | (msg, ip) :: rest =>
    let r := processAnnouncement st msg ip
    let rr := processDatagrams r.1 rest
    (rr.1, r.2.toList ++ rr.2)

/-- Outcome of calling one registered message handler: a new subscriber
state, or a raised exception (absorbed by the listener's `try/except`). -/
inductive HandlerResult (σ : Type) : Type where
  | ok : σ → HandlerResult σ
  | err : String → HandlerResult σ

/-- A registered message handler over subscriber state `σ`, called with the
decoded payload.  (The handlers in this repository do not mutate the
payload dict, so it is passed unchanged to each.) -/
def Handler (σ : Type) : Type := σ → Dict → HandlerResult σ

/-- `P2PHost.add_message_handler` (host.py lines 174-176). -/
def add_message_handler {σ : Type} (handlers : List (Handler σ)) (h : Handler σ) :
    List (Handler σ) :=
  handlers ++ [h]

/-- The handler fan-out loop of `P2PHost._handle_peer_connection` (host.py
lines 75-79): each handler is called once, in list order, with the decoded
payload; an exception is caught and the loop continues.  Returns the final
subscriber state and the per-handler trace (`true` = returned normally,
`false` = raised). -/
def dispatchToHandlers {σ : Type} (s : σ) (msg : Dict) :
    List (Handler σ) → σ × List Bool
  | [] => (s, [])
  | h :: rest =>
    match h s msg with
    | .ok s' =>
      let r := dispatchToHandlers s' msg rest
      (r.1, true :: r.2)
    | .err _ =>
      let r := dispatchToHandlers s msg rest
      (r.1, false :: r.2)

/-! Concrete instances used to exercise the theorems below on closed inputs. -/

def hostW : P2PHost :=
  { peer_id := "self-id", peers := [("peer-2", "10.0.0.2", 9000)],
    peer_failures := [("peer-2", 0)] }

def hostEmptyW : P2PHost :=
  { peer_id := "self-id", peers := [], peer_failures := [] }

def roomW : ChatRoom :=
  { room_name := "general", nickname := "alice", peer_id := "self-id",
    messages := [], seen_message_ids := [] }

def dataW : MsgData :=
  { Message := some "hi", SenderID := some "peer-2", SenderNick := some "bob",
    MessageID := some "mid-1", Timestamp := some "t0" }

def payloadW : Payload :=
  { type := some "chat_message", room := some "general", data := some dataW }

def dataNoIdW : MsgData :=
  { Message := some "hi", SenderID := some "peer-2", SenderNick := some "bob",
    MessageID := none, Timestamp := none }

def payloadNoIdW : Payload :=
  { type := some "chat_message", room := some "general", data := some dataNoIdW }

def selfDataW : MsgData :=
  { Message := some "hi", SenderID := some "self-id", SenderNick := some "alice",
    MessageID := some "mid-9", Timestamp := some "t0" }

def selfPayloadW : Payload :=
  { type := some "chat_message", room := some "general", data := some selfDataW }

def idsW : Nat → String × String :=
  fun k => (if k = 0 then "fresh-a" else "fresh-b", "t1")

def callsW : List PublishCall :=
  [{ body := "hello", freshId := "id-1", now := "t1" },
   { body := "world", freshId := "id-2", now := "t2" }]

def outcomesW : String → Bool := fun _ => true

def dictW : Dict :=
  [("type", JVal.str "chat_message"), ("peer_id", JVal.str "stale"),
   ("room", JVal.str "general")]

def discW : PeerDiscovery :=
  { peer_id := "self-id", rendezvous := "team-alpha", discovered_peers := [] }

def annW : Announcement :=
  { peer_id := some "peer-2", p2p_port := some 9000, rendezvous := some "team-alpha" }

def hErrW : Handler Nat := fun _ _ => HandlerResult.err "boom"

def hOkW : Handler Nat := fun n _ => HandlerResult.ok (n + 1)

/-! Theorems. -/

theorem alookup_aset_self {α : Type} (l : List (String × α)) (k : String) (v : α) :
    alookup (aset l k v) k = some v := by
  induction l with
  | nil => simp [aset, alookup]
  | cons hd tl ih =>
    obtain ⟨k', v'⟩ := hd
    by_cases h : k' = k
    · simp [aset, alookup, h]
    · simp [aset, alookup, h, ih]

theorem alookup_aset_ne {α : Type} (l : List (String × α)) (k k' : String) (v : α)
    (h : k' ≠ k) : alookup (aset l k v) k' = alookup l k' := by
  induction l with
  | nil => simp [aset, alookup, Ne.symm h]
  | cons hd tl ih =>
    obtain ⟨k₀, v₀⟩ := hd
    by_cases h₀ : k₀ = k
    · subst h₀
      simp [aset, alookup, Ne.symm h]
    · simp [aset, alookup, h₀, ih]

theorem alookup_aerase_self {α : Type} (l : List (String × α)) (k : String) :
    alookup (aerase l k) k = none := by
  induction l with
  | nil => simp [aerase, alookup]
  | cons hd tl ih =>
    obtain ⟨k', v'⟩ := hd
    by_cases h : k' = k
    · simp [aerase, h, ih]
    · simp [aerase, alookup, h, ih]

theorem send_success_resets (st : P2PHost) (pid : String) (a : String × Nat) (f : Nat)
    (hp : alookup st.peers pid = some a) (hf : alookup st.peer_failures pid = some f) :
    send_to_peer st pid true
      = { st with peer_failures := aset st.peer_failures pid 0 } := by
  simp [send_to_peer, hp, hf]

theorem send_fail_keeps (st : P2PHost) (pid : String) (a : String × Nat) (f : Nat)
    (hp : alookup st.peers pid = some a) (hf : alookup st.peer_failures pid = some f)
    (hlt : f + 1 < 3) :
    send_to_peer st pid false
      = { st with peer_failures := aset st.peer_failures pid (f + 1) } := by
  have h3 : ¬ 3 ≤ f + 1 := by omega
  simp [send_to_peer, hp, hf, h3]

theorem send_fail_evicts (st : P2PHost) (pid : String) (a : String × Nat) (f : Nat)
    (hp : alookup st.peers pid = some a) (hf : alookup st.peer_failures pid = some f)
    (hge : 3 ≤ f + 1) :
    send_to_peer st pid false
      = { st with peers := aerase st.peers pid,
                  peer_failures := aerase (aset st.peer_failures pid (f + 1)) pid } := by
  simp [send_to_peer, hp, hf, hge]

/-- Claim C3: for a registered peer, a send failure increments its
consecutive-failure counter and a send success resets it to 0; after exactly
2 consecutive failures the peer is still registered, and the 3rd consecutive
failure removes the record together with its counter. -/
theorem c3_failure_counter_and_eviction (st : P2PHost) (pid : String)
    (a : String × Nat) (f : Nat)
    (hp : alookup st.peers pid = some a)
    (hf : alookup st.peer_failures pid = some f) :
    (alookup (send_to_peer st pid true).peer_failures pid = some 0
      ∧ alookup (send_to_peer st pid true).peers pid = some a)
    ∧ (f + 1 < 3 →
        alookup (send_to_peer st pid false).peer_failures pid = some (f + 1)
        ∧ alookup (send_to_peer st pid false).peers pid = some a)
    ∧ (3 ≤ f + 1 →
        alookup (send_to_peer st pid false).peers pid = none
        ∧ alookup (send_to_peer st pid false).peer_failures pid = none)
    ∧ (f = 0 →
        alookup (send_to_peer (send_to_peer st pid false) pid false).peers pid = some a
        ∧ alookup (send_to_peer (send_to_peer st pid false) pid false).peer_failures pid
            = some 2
        ∧ alookup (send_to_peer (send_to_peer (send_to_peer st pid false) pid false)
            pid false).peers pid = none
        ∧ alookup (send_to_peer (send_to_peer (send_to_peer st pid false) pid false)
            pid false).peer_failures pid = none) := by
  refine ⟨⟨?_, ?_⟩, ?_, ?_, ?_⟩
  · rw [send_success_resets st pid a f hp hf]
    exact alookup_aset_self _ _ _
  · rw [send_success_resets st pid a f hp hf]
    exact hp
  · intro hlt
    rw [send_fail_keeps st pid a f hp hf hlt]
    exact ⟨alookup_aset_self _ _ _, hp⟩
  · intro hge
    rw [send_fail_evicts st pid a f hp hf hge]
    exact ⟨alookup_aerase_self _ _, alookup_aerase_self _ _⟩
  · intro h0
    subst h0
    have e1 : send_to_peer st pid false
        = { st with peer_failures := aset st.peer_failures pid 1 } :=
      send_fail_keeps st pid a 0 hp hf (by omega)
    have hp1 : alookup (send_to_peer st pid false).peers pid = some a := by
      rw [e1]; exact hp
    have hf1 : alookup (send_to_peer st pid false).peer_failures pid = some 1 := by
      rw [e1]; exact alookup_aset_self _ _ _
    have e2 : send_to_peer (send_to_peer st pid false) pid false
        = { send_to_peer st pid false with
            peer_failures := aset (send_to_peer st pid false).peer_failures pid 2 } :=
      send_fail_keeps _ pid a 1 hp1 hf1 (by omega)
    have hp2 : alookup (send_to_peer (send_to_peer st pid false) pid false).peers pid
        = some a := by rw [e2]; exact hp1
    have hf2 : alookup
        (send_to_peer (send_to_peer st pid false) pid false).peer_failures pid
        = some 2 := by rw [e2]; exact alookup_aset_self _ _ _
    have e3 := send_fail_evicts _ pid a 2 hp2 hf2 (by omega)
    refine ⟨hp2, hf2, ?_, ?_⟩
    · rw [e3]; exact alookup_aerase_self _ _
    · rw [e3]; exact alookup_aerase_self _ _

theorem c3_witness :
    alookup hostW.peers "peer-2" = some ("10.0.0.2", 9000)
    ∧ alookup hostW.peer_failures "peer-2" = some 0
    ∧ alookup (send_to_peer (send_to_peer hostW "peer-2" false) "peer-2"
        false).peers "peer-2" = some ("10.0.0.2", 9000)
    ∧ alookup (send_to_peer (send_to_peer (send_to_peer hostW "peer-2" false)
        "peer-2" false) "peer-2" false).peers "peer-2" = none := by
  have h := c3_failure_counter_and_eviction hostW "peer-2" ("10.0.0.2", 9000) 0
    (by decide) (by decide)
  exact ⟨by decide, by decide, (h.2.2.2 rfl).1, (h.2.2.2 rfl).2.2.1⟩

/-- Claim C7: `connect_to_peer` is idempotent — for an already-registered
peer id it returns success and changes nothing; for a new peer id it
registers the record with failure count 0, and a failed handshake leaves the
record registered (counter 1). -/
theorem c7_connect_idempotent (st : P2PHost) (ip : String) (port : Nat)
    (pid : String) (hs : Bool) :
    (∀ a, alookup st.peers pid = some a →
        connect_to_peer st ip port pid hs = (st, true))
    ∧ (alookup st.peers pid = none →
        (connect_to_peer st ip port pid hs).2 = true
        ∧ alookup (connect_to_peer st ip port pid hs).1.peers pid = some (ip, port)
        ∧ alookup (connect_to_peer st ip port pid hs).1.peer_failures pid
            = some (if hs then 0 else 1)) := by
  constructor
  · intro a ha
    simp [connect_to_peer, ha]
  · intro hnone
    have hp1 : alookup (aset st.peers pid (ip, port)) pid = some (ip, port) :=
      alookup_aset_self _ _ _
    have hf1 : alookup (aset st.peer_failures pid 0) pid = some 0 :=
      alookup_aset_self _ _ _
    cases hs with
    | true =>
      simp [connect_to_peer, hnone, send_to_peer, hp1, hf1, alookup_aset_self]
    | false =>
      simp [connect_to_peer, hnone, send_to_peer, hp1, hf1, alookup_aset_self]

theorem c7_witness :
    connect_to_peer hostW "10.0.0.2" 9000 "peer-2" true = (hostW, true)
    ∧ alookup (connect_to_peer hostW "10.0.0.3" 9001 "peer-3" false).1.peers
        "peer-3" = some ("10.0.0.3", 9001)
    ∧ alookup (connect_to_peer hostW "10.0.0.3" 9001 "peer-3" false).1.peer_failures
        "peer-3" = some 1 := by
  have h1 := (c7_connect_idempotent hostW "10.0.0.2" 9000 "peer-2" true).1
    ("10.0.0.2", 9000) (by decide)
  have h2 := (c7_connect_idempotent hostW "10.0.0.3" 9001 "peer-3" false).2
    (by decide)
  exact ⟨h1, h2.2.1, by simpa using h2.2.2⟩

/-- Claim C9: `broadcast_message` mutates its argument dict — it writes this
host's peer id under the key `peer_id`, overwriting any existing value, and
the caller observes the stamped dict after the call; every other key is
unchanged. -/
theorem c9_broadcast_mutates_payload (st : P2PHost) (message : Dict)
    (outcomes : String → Bool) :
    alookup (broadcast_message st message outcomes).2.1 "peer_id"
        = some (JVal.str st.peer_id)
    ∧ ∀ k, k ≠ "peer_id" →
        alookup (broadcast_message st message outcomes).2.1 k = alookup message k := by
  constructor
  · simpa [broadcast_message] using
      alookup_aset_self message "peer_id" (JVal.str st.peer_id)
  · intro k hk
    simpa [broadcast_message] using
      alookup_aset_ne message "peer_id" k (JVal.str st.peer_id) hk

theorem c9_witness :
    alookup (broadcast_message hostW dictW outcomesW).2.1 "peer_id"
        = some (JVal.str hostW.peer_id)
    ∧ alookup (broadcast_message hostW dictW outcomesW).2.1 "room"
        = alookup dictW "room" :=
  ⟨(c9_broadcast_mutates_payload hostW dictW outcomesW).1,
   (c9_broadcast_mutates_payload hostW dictW outcomesW).2 "room" (by decide)⟩

theorem publish_fst (room : ChatRoom) (host : P2PHost) (body freshId now : String)
    (outcomes : String → Bool) :
    (publish room host body freshId now outcomes).1
      = { room with
          messages := room.messages
            ++ [⟨body, room.peer_id, room.nickname, freshId, now⟩],
          seen_message_ids := setInsert freshId room.seen_message_ids } := rfl

/-- Claim C6: `publish` returns true iff the broadcast reported at least one
successful send; the message is appended to local history regardless; with
zero registered peers the broadcast returns 0 and `publish` still appends
and returns false. -/
theorem c6_publish_return_and_retention (room : ChatRoom) (host : P2PHost)
    (body freshId now : String) (outcomes : String → Bool) :
    (publish room host body freshId now outcomes).1.messages
      = room.messages ++ [⟨body, room.peer_id, room.nickname, freshId, now⟩]
    ∧ ((publish room host body freshId now outcomes).2.2 = true
        ↔ 0 < (broadcast_message host
            (payloadDict room.room_name
              ⟨body, room.peer_id, room.nickname, freshId, now⟩) outcomes).2.2)
    ∧ (host.peers = [] →
        (broadcast_message host
            (payloadDict room.room_name
              ⟨body, room.peer_id, room.nickname, freshId, now⟩) outcomes).2.2 = 0
        ∧ (publish room host body freshId now outcomes).2.2 = false) := by
  refine ⟨rfl, ?_, ?_⟩
  · by_cases h : 0 < (broadcast_message host
        (payloadDict room.room_name
          ⟨body, room.peer_id, room.nickname, freshId, now⟩) outcomes).2.2
    · simp [publish, h]
    · simp [publish, h]
  · intro hempty
    constructor
    · simp [broadcast_message, hempty]
    · simp [publish, broadcast_message, hempty]

theorem c6_witness :
    (publish roomW hostEmptyW "hello" "id-1" "t1" outcomesW).1.messages
      = roomW.messages
        ++ [⟨"hello", roomW.peer_id, roomW.nickname, "id-1", "t1"⟩]
    ∧ (publish roomW hostEmptyW "hello" "id-1" "t1" outcomesW).2.2 = false := by
  have h := c6_publish_return_and_retention roomW hostEmptyW "hello" "id-1" "t1"
    outcomesW
  exact ⟨h.1, (h.2.2 rfl).2⟩

/-- Claim C2: a sequence of `publish` calls with non-empty text (and no
inbound traffic) leaves `get_messages` with exactly one formatted entry per
call, in call order. -/
theorem c2_publish_sequence_history (room : ChatRoom) (host : P2PHost)
    (outcomes : String → Bool) (calls : List PublishCall)
    (hne : ∀ c ∈ calls, c.body ≠ "") :
    get_messages (runPublishes room host outcomes calls).1
      = get_messages room
        ++ calls.map (fun c => "[" ++ c.now ++ "] " ++ room.nickname ++ ": " ++ c.body) := by
  induction calls generalizing room host with
  | nil => simp [runPublishes]
  | cons c rest ih =>
    have hrest : ∀ x ∈ rest, x.body ≠ "" := fun x hx =>
      hne x (List.mem_cons_of_mem _ hx)
    have step := ih ((publish room host c.body c.freshId c.now outcomes).1)
      ((publish room host c.body c.freshId c.now outcomes).2.1) hrest
    simp only [runPublishes]
    rw [step, publish_fst]
    simp [get_messages, formatMessage, List.append_assoc]

theorem c2_witness :
    get_messages (runPublishes roomW hostEmptyW outcomesW callsW).1
      = get_messages roomW
        ++ callsW.map
            (fun c => "[" ++ c.now ++ "] " ++ roomW.nickname ++ ": " ++ c.body) :=
  c2_publish_sequence_history roomW hostEmptyW outcomesW callsW (by decide)

/-- Claim C4: the inbound handler is a no-op on any payload whose type is
not `chat_message`, whose room differs from this room's name, or whose
sender identity equals the local identity (regardless of message id
novelty): history and seen_ids are unchanged. -/
theorem c4_handler_ignores_foreign (st : ChatRoom) (p : Payload)
    (freshId now : String)
    (h : p.type ≠ some "chat_message"
       ∨ p.room ≠ some st.room_name
       ∨ (p.data.getD emptyMsgData).SenderID = some st.peer_id) :
    handle_incoming_message st p freshId now = st := by
  rcases h with h | h | h
  · simp [handle_incoming_message, h]
  · by_cases ht : p.type = some "chat_message"
    · simp [handle_incoming_message, ht, h]
    · simp [handle_incoming_message, ht]
  · by_cases ht : p.type = some "chat_message"
    · by_cases hr : p.room = some st.room_name
      · rcases hM : (p.data.getD emptyMsgData).Message with _ | b <;>
          rcases hN : (p.data.getD emptyMsgData).SenderNick with _ | nk <;>
          simp [handle_incoming_message, mkChatMessage, ht, hr, hM, hN, h]
      · simp [handle_incoming_message, ht, hr]
    · simp [handle_incoming_message, ht]

theorem c4_witness :
    handle_incoming_message roomW selfPayloadW "fresh-a" "t1" = roomW :=
  c4_handler_ignores_foreign roomW selfPayloadW "fresh-a" "t1"
    (Or.inr (Or.inr (by decide)))

theorem handle_appends (st : ChatRoom) (p : Payload) (d : MsgData)
    (b s nk m fid now : String)
    (hd : p.data = some d) (ht : p.type = some "chat_message")
    (hr : p.room = some st.room_name)
    (hb : d.Message = some b) (hsid : d.SenderID = some s)
    (hnk : d.SenderNick = some nk) (hm : d.MessageID = some m)
    (hs : s ≠ st.peer_id) (hnew : m ∉ st.seen_message_ids) :
    handle_incoming_message st p fid now
      = { st with
          messages := st.messages ++ [⟨b, s, nk, m, d.Timestamp.getD now⟩],
          seen_message_ids := m :: st.seen_message_ids } := by
  simp [handle_incoming_message, ht, hr, hd, mkChatMessage, hb, hsid, hnk, hm,
    hs, hnew, setInsert]

theorem handle_already_seen (st : ChatRoom) (p : Payload) (d : MsgData)
    (b s nk m fid now : String)
    (hd : p.data = some d) (ht : p.type = some "chat_message")
    (hr : p.room = some st.room_name)
    (hb : d.Message = some b) (hsid : d.SenderID = some s)
    (hnk : d.SenderNick = some nk) (hm : d.MessageID = some m)
    (hs : s ≠ st.peer_id) (hseen : m ∈ st.seen_message_ids) :
    handle_incoming_message st p fid now = st := by
  simp [handle_incoming_message, ht, hr, hd, mkChatMessage, hb, hsid, hnk, hm,
    hs, hseen]

/-- Claim C1: delivering the same complete chat payload (matching room,
foreign sender, fixed MessageID not yet seen) N ≥ 1 times adds exactly one
history entry and exactly one seen id, and every delivery after the first
leaves the room state unchanged. -/
theorem c1_dedup_idempotent (st : ChatRoom) (p : Payload) (d : MsgData)
    (b s nk m : String) (ids : Nat → String × String)
    (hd : p.data = some d) (ht : p.type = some "chat_message")
    (hr : p.room = some st.room_name)
    (hb : d.Message = some b) (hsid : d.SenderID = some s)
    (hnk : d.SenderNick = some nk) (hm : d.MessageID = some m)
    (hs : s ≠ st.peer_id) (hnew : m ∉ st.seen_message_ids) :
    (∀ n, 1 ≤ n →
      iterateHandler st p ids n
        = { st with
            messages := st.messages ++ [⟨b, s, nk, m, d.Timestamp.getD (ids 0).2⟩],
            seen_message_ids := m :: st.seen_message_ids })
    ∧ (∀ n, 1 ≤ n →
        (iterateHandler st p ids n).messages.length = st.messages.length + 1
        ∧ (iterateHandler st p ids n).seen_message_ids.length
            = st.seen_message_ids.length + 1)
    ∧ (∀ n, 1 ≤ n →
        handle_incoming_message (iterateHandler st p ids n) p (ids n).1 (ids n).2
          = iterateHandler st p ids n) := by
  have key : ∀ n, 1 ≤ n →
      iterateHandler st p ids n
        = { st with
            messages := st.messages ++ [⟨b, s, nk, m, d.Timestamp.getD (ids 0).2⟩],
            seen_message_ids := m :: st.seen_message_ids } := by
    intro n hn
    induction n with
    | zero => omega
    | succ k ihk =>
      rcases Nat.eq_zero_or_pos k with hk | hk
      · subst hk
        show handle_incoming_message (iterateHandler st p ids 0) p (ids 0).1 (ids 0).2
          = _
        exact handle_appends st p d b s nk m (ids 0).1 (ids 0).2
          hd ht hr hb hsid hnk hm hs hnew
      · show handle_incoming_message (iterateHandler st p ids k) p (ids k).1 (ids k).2
          = _
        rw [ihk hk]
        exact handle_already_seen _ p d b s nk m (ids k).1 (ids k).2
          hd ht hr hb hsid hnk hm hs (List.mem_cons_self m _)
  refine ⟨key, ?_, ?_⟩
  · intro n hn
    rw [key n hn]
    constructor
    · simp
    · simp
  · intro n hn
    rw [key n hn]
    exact handle_already_seen _ p d b s nk m (ids n).1 (ids n).2
      hd ht hr hb hsid hnk hm hs (List.mem_cons_self m _)

theorem c1_witness :
    iterateHandler roomW payloadW idsW 2
      = { roomW with
          messages := roomW.messages
            ++ [⟨"hi", "peer-2", "bob", "mid-1", dataW.Timestamp.getD (idsW 0).2⟩],
          seen_message_ids := "mid-1" :: roomW.seen_message_ids }
    ∧ (iterateHandler roomW payloadW idsW 2).messages.length
        = roomW.messages.length + 1 := by
  have h := c1_dedup_idempotent roomW payloadW dataW "hi" "peer-2" "bob" "mid-1"
    idsW rfl rfl rfl rfl rfl rfl rfl (by decide) (by decide)
  exact ⟨h.1 2 (by omega), (h.2.1 2 (by omega)).1⟩

theorem handle_appends_noid (st : ChatRoom) (p : Payload) (d : MsgData)
    (b s nk fid now : String)
    (hd : p.data = some d) (ht : p.type = some "chat_message")
    (hr : p.room = some st.room_name)
    (hb : d.Message = some b) (hsid : d.SenderID = some s)
    (hnk : d.SenderNick = some nk) (hmid : d.MessageID = none)
    (hs : s ≠ st.peer_id) (hnew : fid ∉ st.seen_message_ids) :
    handle_incoming_message st p fid now
      = { st with
          messages := st.messages ++ [⟨b, s, nk, fid, d.Timestamp.getD now⟩],
          seen_message_ids := fid :: st.seen_message_ids } := by
  simp [handle_incoming_message, ht, hr, hd, mkChatMessage, hb, hsid, hnk, hmid,
    hs, hnew, setInsert]

/-- Claim C10: an inbound chat payload with the three required fields but no
MessageID passes validation; each delivery builds a message whose MessageID
is the freshly generated token of that delivery, so as long as the generated
tokens are fresh, every delivery appends a new history entry — dedup never
discards such a payload. -/
theorem c10_missing_messageid_never_deduped (st : ChatRoom) (p : Payload)
    (d : MsgData) (b s nk : String) (ids : Nat → String × String) (n : Nat)
    (hd : p.data = some d) (ht : p.type = some "chat_message")
    (hr : p.room = some st.room_name)
    (hb : d.Message = some b) (hsid : d.SenderID = some s)
    (hnk : d.SenderNick = some nk) (hmid : d.MessageID = none)
    (hs : s ≠ st.peer_id)
    (hfresh : ∀ k, k < n → (ids k).1 ∉ st.seen_message_ids)
    (hdist : ∀ k, k < n → ∀ j, j < k → (ids j).1 ≠ (ids k).1) :
    (∀ fid now, mkChatMessage d fid now
        = some ⟨b, s, nk, fid, d.Timestamp.getD now⟩)
    ∧ (iterateHandler st p ids n).messages.length = st.messages.length + n := by
  constructor
  · intro fid now
    simp [mkChatMessage, hb, hsid, hnk, hmid]
  · have main : ∀ k, k ≤ n →
        (iterateHandler st p ids k).room_name = st.room_name
        ∧ (iterateHandler st p ids k).peer_id = st.peer_id
        ∧ (iterateHandler st p ids k).messages.length = st.messages.length + k
        ∧ (∀ x, x ∈ (iterateHandler st p ids k).seen_message_ids →
              x ∈ st.seen_message_ids ∨ ∃ j, j < k ∧ x = (ids j).1) := by
      intro k hk
      induction k with
      | zero => exact ⟨rfl, rfl, rfl, fun x hx => Or.inl hx⟩
      | succ j ihj =>
        obtain ⟨hrn, hpi, hlen, hseen⟩ := ihj (Nat.le_of_succ_le hk)
        have hjn : j < n := Nat.lt_of_lt_of_le (Nat.lt_succ_self j) hk
        have hnotin : (ids j).1 ∉ (iterateHandler st p ids j).seen_message_ids := by
          intro hin
          rcases hseen _ hin with hin' | ⟨j', hj', he⟩
          · exact hfresh j hjn hin'
          · exact hdist j hjn j' hj' he.symm
        have e := handle_appends_noid (iterateHandler st p ids j) p d b s nk
          (ids j).1 (ids j).2 hd ht (by rw [hrn]; exact hr) hb hsid hnk hmid
          (by rw [hpi]; exact hs) hnotin
        refine ⟨?_, ?_, ?_, ?_⟩
        · show (handle_incoming_message (iterateHandler st p ids j) p
              (ids j).1 (ids j).2).room_name = st.room_name
          rw [e]
          exact hrn
        · show (handle_incoming_message (iterateHandler st p ids j) p
              (ids j).1 (ids j).2).peer_id = st.peer_id
          rw [e]
          exact hpi
        · show (handle_incoming_message (iterateHandler st p ids j) p
              (ids j).1 (ids j).2).messages.length = st.messages.length + (j + 1)
          rw [e]
          simp only [List.length_append, List.length_cons, List.length_nil]
          omega
        · intro x hx
          rw [show iterateHandler st p ids (j + 1)
              = handle_incoming_message (iterateHandler st p ids j) p
                  (ids j).1 (ids j).2 from rfl, e] at hx
          rcases List.mem_cons.mp hx with hx' | hx'
          · exact Or.inr ⟨j, Nat.lt_succ_self j, hx'⟩
          · rcases hseen x hx' with hx'' | ⟨j', hj', he⟩
            · exact Or.inl hx''
            · exact Or.inr ⟨j', Nat.lt_succ_of_lt hj', he⟩
    exact (main n le_rfl).2.2.1

theorem c10_witness :
    mkChatMessage dataNoIdW "fresh-a" "t1"
      = some ⟨"hi", "peer-2", "bob", "fresh-a", dataNoIdW.Timestamp.getD "t1"⟩
    ∧ (iterateHandler roomW payloadNoIdW idsW 2).messages.length
        = roomW.messages.length + 2 := by
  have h := c10_missing_messageid_never_deduped roomW payloadNoIdW dataNoIdW
    "hi" "peer-2" "bob" idsW 2 rfl rfl rfl rfl rfl rfl rfl (by decide)
    (by decide) (by decide)
  exact ⟨h.1 "fresh-a" "t1", h.2⟩

theorem process_self (st : PeerDiscovery) (a : Announcement) (ip : String)
    (h : a.peer_id = some st.peer_id) :
    processAnnouncement st a ip = (st, none) := by
  simp [processAnnouncement, h]

theorem process_wrong_rendezvous (st : PeerDiscovery) (a : Announcement)
    (ip : String) (h : a.rendezvous ≠ some st.rendezvous) :
    processAnnouncement st a ip = (st, none) := by
  by_cases hself : a.peer_id = some st.peer_id
  · simp [processAnnouncement, hself]
  · simp [processAnnouncement, hself, h]

theorem process_seen (st : PeerDiscovery) (a : Announcement) (ip pid : String)
    (hpid : a.peer_id = some pid) (hmem : pid ∈ st.discovered_peers) :
    processAnnouncement st a ip = (st, none) := by
  by_cases hself : a.peer_id = some st.peer_id
  · simp [processAnnouncement, hself]
  · by_cases hrdv : a.rendezvous = some st.rendezvous
    · rcases hport : a.p2p_port with _ | port
      · simp [processAnnouncement, hself, hrdv, hpid, hport]
      · by_cases hz : pid = "" ∨ port = 0
        · simp [processAnnouncement, hself, hrdv, hpid, hport, hz]
        · simp [processAnnouncement, hself, hrdv, hpid, hport, hz, hmem]
    · simp [processAnnouncement, hself, hrdv]

theorem process_fires (st : PeerDiscovery) (a : Announcement) (ip pid : String)
    (port : Nat)
    (hpid : a.peer_id = some pid) (hport : a.p2p_port = some port)
    (hrdv : a.rendezvous = some st.rendezvous)
    (hself : pid ≠ st.peer_id) (hpe : pid ≠ "") (hpo : port ≠ 0)
    (hnew : pid ∉ st.discovered_peers) :
    processAnnouncement st a ip
      = ({ st with discovered_peers := pid :: st.discovered_peers },
         some (pid, ip, port)) := by
  have hself' : ¬(a.peer_id = some st.peer_id) := by
    rw [hpid]
    simp [hself]
  have hz : ¬(pid = "" ∨ port = 0) := not_or.mpr ⟨hpe, hpo⟩
  simp [processAnnouncement, hself', hrdv, hpid, hport, hz, hnew, setInsert, hself]

theorem processDatagrams_stable (st : PeerDiscovery) (a : Announcement)
    (ip pid : String) (hpid : a.peer_id = some pid)
    (hmem : pid ∈ st.discovered_peers) (k : Nat) :
    processDatagrams st (List.replicate k (a, ip)) = (st, []) := by
  induction k with
  | zero => simp [processDatagrams]
  | succ j ihj =>
    simp [List.replicate_succ, processDatagrams,
      process_seen st a ip pid hpid hmem, ihj]

/-- Claim C5: for a fixed rendezvous, the discovery callback fires exactly
once per distinct valid announced peer id no matter how often the
announcement is received; an announcement with a non-matching rendezvous,
or carrying this host's own peer id, never fires the callback. -/
theorem c5_discovery_dedup_and_filtering (st : PeerDiscovery) (a : Announcement)
    (srcIp pid : String) (port : Nat)
    (hpid : a.peer_id = some pid) (hport : a.p2p_port = some port)
    (hrdv : a.rendezvous = some st.rendezvous)
    (hself : pid ≠ st.peer_id) (hpe : pid ≠ "") (hpo : port ≠ 0)
    (hnew : pid ∉ st.discovered_peers) :
    (∀ n, 1 ≤ n →
        (processDatagrams st (List.replicate n (a, srcIp))).2
          = [(pid, srcIp, port)])
    ∧ (∀ st' : PeerDiscovery, ∀ b : Announcement, ∀ ip : String,
        b.rendezvous ≠ some st'.rendezvous →
          processAnnouncement st' b ip = (st', none))
    ∧ (∀ st' : PeerDiscovery, ∀ b : Announcement, ∀ ip : String,
        b.peer_id = some st'.peer_id →
          processAnnouncement st' b ip = (st', none)) := by
  refine ⟨?_, ?_, ?_⟩
  · intro n hn
    obtain ⟨k, rfl⟩ : ∃ k, n = k + 1 := ⟨n - 1, by omega⟩
    have e1 := process_fires st a srcIp pid port hpid hport hrdv hself hpe hpo hnew
    have e2 := processDatagrams_stable
      { st with discovered_peers := pid :: st.discovered_peers } a srcIp pid hpid
      (List.mem_cons_self pid _) k
    simp [List.replicate_succ, processDatagrams, e1, e2]
  · exact fun st' b ip h => process_wrong_rendezvous st' b ip h
  · exact fun st' b ip h => process_self st' b ip h

theorem c5_witness :
    (processDatagrams discW (List.replicate 3 (annW, "10.0.0.2"))).2
      = [("peer-2", "10.0.0.2", 9000)] := by
  have h := c5_discovery_dedup_and_filtering discW annW "10.0.0.2" "peer-2" 9000
    rfl rfl rfl (by decide) (by decide) (by decide) (by decide)
  exact h.1 3 (by omega)

/-- Claim C8: for an accepted inbound message every registered handler is
invoked exactly once, in registration order, with the decoded payload; a
handler that raises does not stop the remaining handlers from running. -/
theorem c8_handlers_all_invoked (σ : Type) (s : σ) (msg : Dict)
    (handlers : List (Handler σ)) :
    (dispatchToHandlers s msg handlers).2.length = handlers.length
    ∧ (∀ h rest e, h s msg = HandlerResult.err e →
        dispatchToHandlers s msg (h :: rest)
          = ((dispatchToHandlers s msg rest).1,
             false :: (dispatchToHandlers s msg rest).2))
    ∧ (∀ h rest s', h s msg = HandlerResult.ok s' →
        dispatchToHandlers s msg (h :: rest)
          = ((dispatchToHandlers s' msg rest).1,
             true :: (dispatchToHandlers s' msg rest).2)) := by
  refine ⟨?_, ?_, ?_⟩
  · induction handlers generalizing s with
    | nil => simp [dispatchToHandlers]
    | cons h rest ih =>
      cases hh : h s msg with
      | ok s' => simp [dispatchToHandlers, hh, ih]
      | err e => simp [dispatchToHandlers, hh, ih]
  · intro h rest e hh
    simp [dispatchToHandlers, hh]
  · intro h rest s' hh
    simp [dispatchToHandlers, hh]

theorem c8_witness :
    dispatchToHandlers (0 : Nat) ([] : Dict) [hErrW, hOkW]
      = ((dispatchToHandlers (0 : Nat) ([] : Dict) [hOkW]).1,
         false :: (dispatchToHandlers (0 : Nat) ([] : Dict) [hOkW]).2) :=
  (c8_handlers_all_invoked Nat 0 [] [hErrW, hOkW]).2.1 hErrW [hOkW] "boom" rfl

end Chatroom
